import Mathlib

/-!
Shallow embedding of the Hacker News terminal client (`src/main.rs`) and
proofs about it.

The embedding covers:
* the data model (`Item`, `AppState`, `App`) and the `App` methods
  (`new`, `next`, `previous`, `selected_story`, `set_stories`, `set_error`,
  `update_loading_progress`);
* the fetch pipeline `fetch_top_story_ids` / `fetch_stories_with_progress`,
  with the network modelled by an index response and a per-item oracle, and
  the progress callback modelled by an explicit trace of reported values;
* the orchestrator loop `run_app`: channel messages (`AppMessage`), message
  draining, and the per-mode key handling, as a transition system with a
  reachability predicate;
* the tail of `main`: exit status and the diagnostic printed for an
  internal error.

Machine integers (`u16`, `u32`, `u64`, `usize`) are modelled as `Nat`; no
arithmetic in the modelled code paths can overflow them (progress values are
clamped to 100, list lengths are at most 30).
-/

namespace HNClient

/-- Embeds `Item` from `src/main.rs`: a Hacker News story record. The Rust field
`by` is a Lean keyword, so it is embedded as `by_`. -/
structure Item where
  title : String
  url : Option String
  score : Nat
  by_ : String
  time : Nat
  descendants : Option Nat
  deriving Repr, DecidableEq

/-- Embeds `AppState` from `src/main.rs`: the screen mode. -/
inductive AppState where
  | Loading : AppState
  | Stories : AppState
  | Error : String → AppState
  deriving Repr, DecidableEq

/-- Embeds `App` from `src/main.rs`: the whole application state. -/
structure App where
  stories : List Item
  selected : Nat
  state : AppState
  loading_progress : Nat
  deriving Repr, DecidableEq

/-- Embeds `App::new`: empty story list, selection 0, Loading mode, progress 0. -/
def App.new : App :=
  { stories := [], selected := 0, state := AppState.Loading, loading_progress := 0 }

/-- Embeds `App::next`: `if !self.stories.is_empty() && self.selected < self.stories.len().saturating_sub(1) { self.selected += 1 }`.
`Nat` subtraction is saturating, matching `saturating_sub`. -/
def App.next (app : App) : App :=
  if app.stories ≠ [] ∧ app.selected < app.stories.length - 1 then
    { app with selected := app.selected + 1 }
  else
    app

/-- Embeds `App::previous`: `if self.selected > 0 { self.selected -= 1 }`. -/
def App.previous (app : App) : App :=
  if app.selected > 0 then { app with selected := app.selected - 1 } else app

/-- Embeds `App::selected_story`: `self.stories.get(self.selected)`. -/
def App.selected_story (app : App) : Option Item :=
  app.stories[app.selected]?

/-- Embeds `App::set_stories`: install the list, switch to Stories mode, reset the
selection to 0. -/
def App.set_stories (app : App) (stories : List Item) : App :=
  { app with stories := stories, state := AppState.Stories, selected := 0 }

/-- Embeds `App::set_error`: switch to Error mode, everything else untouched. -/
def App.set_error (app : App) (error : String) : App :=
  { app with state := AppState.Error error }

/-- Embeds `App::update_loading_progress`: `self.loading_progress = progress.min(100)`.
Note the assignment is unconditional — it does not inspect `self.state`. -/
def App.update_loading_progress (app : App) (progress : Nat) : App :=
  { app with loading_progress := min progress 100 }

/-- Embeds `fetch_top_story_ids`: on a successful index response, truncate the id
list to at most 30 (`ids.into_iter().take(30)`); a failed request aborts
with the error. The network response is the argument. -/
def fetch_top_story_ids (indexResponse : Except String (List Nat)) :
    Except String (List Nat) :=
  match indexResponse with
  | Except.error e => Except.error e
  | Except.ok ids => Except.ok (ids.take 30)

/-- The progress value the per-item loop reports after processing the item
at position `index` out of `total`:
`20 + ((index as f32 / total_ids) * 70.0) as u16`.
`70 * index / total` (floor division on `Nat`) is the exact value of that
`f32` expression for every `total ≤ 30` and `index < total`: the relative
rounding error of the two `f32` operations is below `10 ^ (-5)`, and at
every input where `70 * index / total` is an exact integer the `f32`
intermediate rounds upward or is exact, so the truncation `as u16` agrees
with the exact floor. -/
def itemProgress (total index : Nat) : Nat :=
  20 + 70 * index / total

/-- The `for (index, id) in ids.iter().enumerate()` loop of
`fetch_stories_with_progress`: fetch each id via the oracle `fetchItem`
(`none` models a failed `fetch_item`, which is reported and skipped), push
successes in order, and report `itemProgress` after every iteration.
Returns the accumulated stories and the trace of reported progress values. -/
def fetchLoop (fetchItem : Nat → Option Item) (total : Nat) :
    List Nat → Nat → List Item × List Nat
  | [], _ => ([], [])
  | id :: rest, index =>
    let tail := fetchLoop fetchItem total rest (index + 1)
    match fetchItem id with
    | some item => (item :: tail.1, itemProgress total index :: tail.2)
    | none => (tail.1, itemProgress total index :: tail.2)

/-- Embeds `fetch_stories_with_progress`: report 10, fetch the index (abort on
failure), report 20, run the per-item loop, report 100, return the stories.
The first component is the returned `Result`, the second the full trace of
values passed to the progress callback, in call order. -/
def fetch_stories_with_progress (indexResponse : Except String (List Nat))
    (fetchItem : Nat → Option Item) :
    Except String (List Item) × List Nat :=
  match fetch_top_story_ids indexResponse with
  | Except.error e => (Except.error e, [10])
  | Except.ok ids =>
    let r := fetchLoop fetchItem ids.length ids 0
    (Except.ok r.1, 10 :: 20 :: (r.2 ++ [100]))

/-- Embeds `AppMessage` from `src/main.rs`: messages sent from the background fetch
task into the unbounded channel. -/
inductive AppMessage where
  | Progress : Nat → AppMessage
  | StoriesLoaded : List Item → AppMessage
  | Error : String → AppMessage
  deriving Repr, DecidableEq

/-- One iteration of the message-draining `while let Ok(msg) = rx.try_recv()`
loop in `run_app`. -/
def applyMessage (app : App) : AppMessage → App
  | AppMessage.Progress p => app.update_loading_progress p
  | AppMessage.StoriesLoaded stories => app.set_stories stories
  | AppMessage.Error e => app.set_error e

/-- Draining the channel: apply every queued message, in arrival order. -/
def drainAll (app : App) (msgs : List AppMessage) : App :=
  msgs.foldl applyMessage app

/-- The key presses `run_app` distinguishes: quit (`q`/`Q`/Esc), Down/`j`,
Up/`k`, Enter, `r`/`R` (refresh or retry), and anything else. -/
inductive Key where
  | quit : Key
  | down : Key
  | up : Key
  | enter : Key
  | refresh : Key
  | other : Key
  deriving Repr, DecidableEq

/-- The Enter branch of the Stories arm of `run_app`: invoke the opener on
the selected story's url when it is present and non-empty. The second
component is the url passed to `open::that` (`none` = opener not invoked);
the opener's own result is discarded (`let _ = open::that(url)`), so the
returned `App` does not depend on it. -/
def handleEnter (app : App) : App × Option String :=
  match app.selected_story with
  | some story =>
    match story.url with
    | some url => if url.isEmpty then (app, none) else (app, some url)
    | none => (app, none)
  | none => (app, none)

/-- The key-handling `match app.state` of `run_app`. The quit key returns
from the loop without touching the state, so it is modelled as the identity
on `App`. Refresh in Stories mode resets the mode and progress and clears
the stories (but not `selected`); retry in Error mode resets the mode and
progress only. -/
def handleKey (app : App) (k : Key) : App :=
  match app.state with
  | AppState.Loading => app
  | AppState.Error _ =>
    match k with
    | Key.refresh => { app with state := AppState.Loading, loading_progress := 0 }
    | Key.quit => app
    | Key.down => app
    | Key.up => app
    | Key.enter => app
    | Key.other => app
  | AppState.Stories =>
    match k with
    | Key.down => app.next
    | Key.up => app.previous
    | Key.enter => (handleEnter app).1
    | Key.refresh =>
      { app with state := AppState.Loading, loading_progress := 0, stories := [] }
    | Key.quit => app
    | Key.other => app

/-- The states of `App` reachable by the `run_app` loop: the initial state,
closed under applying a drained channel message and under handling an
accepted key press. -/
inductive Reachable : App → Prop where
  | init : Reachable App.new
  | msg : ∀ (a : App) (m : AppMessage), Reachable a → Reachable (applyMessage a m)
  | key : ∀ (a : App) (k : Key), Reachable a → Reachable (handleKey a k)

/-- A selection-navigation command. -/
inductive NavOp where
  | next : NavOp
  | previous : NavOp
  deriving Repr, DecidableEq

/-- Apply one navigation command (`App::next` / `App::previous`). -/
def applyNav (app : App) : NavOp → App
  | NavOp.next => app.next
  | NavOp.previous => app.previous

/-- Apply a finite sequence of navigation commands, left to right. -/
def applyNavs (app : App) (ops : List NavOp) : App :=
  ops.foldl applyNav app

/-- The control flow of `main`: the `catch_unwind(enable_raw_mode)` probe
(`rawModeProbe = false` models a failed probe, which prints a message and
returns `Ok(())` early), the remaining terminal setup steps (each followed
by `?`), the terminal cleanup steps after `run_app` (each followed by `?`),
and the result of `run_app`.  Returns the value `main` returns together
with the diagnostic printed to stderr, if any.  A `run_app` error is only
printed — `main` still returns `Ok(())`. -/
def mainResult (rawModeProbe : Bool) (setup cleanup : Except String Unit)
    (runResult : Except String Unit) : Except String Unit × Option String :=
  if rawModeProbe = false then
    (Except.ok (),
      some "Failed to enable raw mode. Make sure you're running in a proper terminal.")
  else
    match setup with
    | Except.error e => (Except.error e, none)
    | Except.ok _ =>
      match cleanup with
      | Except.error e => (Except.error e, none)
      | Except.ok _ =>
        match runResult with
        | Except.error err => (Except.ok (), some ("Application error: " ++ err))
        | Except.ok _ => (Except.ok (), none)

/-- The process exit code produced by an `anyhow::Result` returned from
`main`: 0 for `Ok`, nonzero (1) for `Err`. -/
def exitCode : Except String Unit → Nat
  | Except.ok _ => 0
  | Except.error _ => 1

/-- A concrete story record, used in witnesses and counterexamples. -/
def sampleItem : Item :=
  { title := "a", url := some "https://example.com", score := 1,
    by_ := "u", time := 0, descendants := none }

/-- A second concrete story record. -/
def sampleItem2 : Item :=
  { title := "b", url := none, score := 2,
    by_ := "v", time := 5, descendants := some 3 }

/-- An app in Stories mode holding one story, as produced by a completed
fetch. -/
def storiesApp : App :=
  App.new.set_stories [sampleItem]

/-- An app in Stories mode holding two stories. -/
def storiesApp2 : App :=
  App.new.set_stories [sampleItem, sampleItem2]

/-- A per-item oracle for which exactly the fetch of id 2 fails. -/
def sampleFetch : Nat → Option Item :=
  fun id => if id = 2 then none else some sampleItem

/-- A configuration of the `run_app` loop together with its channel and its
background fetch tasks: the application state, the queued (sent but not yet
drained) channel messages in send order, and the pending (not yet sent)
message lists of the live fetch tasks. A task whose messages are all sent
is no longer represented. -/
structure LoopConfig where
  app : App
  chan : List AppMessage
  tasks : List (List AppMessage)

/-- The terminal message a fetch task sends after `fetch_stories_with_progress`
returns: `StoriesLoaded` on `Ok`, `Error` on `Err` (main.rs:479-485). -/
def terminalOf : Except String (List Item) → AppMessage
  | Except.ok stories => AppMessage.StoriesLoaded stories
  | Except.error e => AppMessage.Error e

/-- The full message sequence a spawned fetch task sends, in order: one
`Progress` per progress-callback invocation, then exactly one terminal
message. -/
def taskMessages (ir : Except String (List Nat)) (f : Nat → Option Item) :
    List AppMessage :=
  ((fetch_stories_with_progress ir f).2).map AppMessage.Progress
    ++ [terminalOf (fetch_stories_with_progress ir f).1]

/-- Whether handling key `k` spawns a new fetch task: only `r`/`R`, and only
in Stories mode (refresh, main.rs:571-592) or Error mode (retry,
main.rs:526-546); Loading mode ignores it. -/
def SpawnsTask (app : App) (k : Key) : Prop :=
  k = Key.refresh ∧ app.state ≠ AppState.Loading

/-- Interleaved small-step semantics of `run_app`: a live task sends its
next pending message into the channel (FIFO, messages of one task in
order); the loop drains the entire channel, applying every queued message
in arrival order (main.rs:490-502); or the loop handles one key press on
the drained state, spawning a fresh task exactly when the refresh/retry
branch runs. Sends may interleave freely with loop steps, which
over-approximates the real scheduling (the real loop drains immediately
before each key read). -/
inductive LoopStep : LoopConfig → LoopConfig → Prop where
  | send : ∀ (app : App) (chan : List AppMessage)
      (pre post : List (List AppMessage)) (m : AppMessage) (rest : List AppMessage),
      rest ≠ [] →
      LoopStep ⟨app, chan, pre ++ (m :: rest) :: post⟩
        ⟨app, chan ++ [m], pre ++ rest :: post⟩
  | sendLast : ∀ (app : App) (chan : List AppMessage)
      (pre post : List (List AppMessage)) (m : AppMessage),
      LoopStep ⟨app, chan, pre ++ [m] :: post⟩ ⟨app, chan ++ [m], pre ++ post⟩
  | drain : ∀ (app : App) (chan : List AppMessage) (tasks : List (List AppMessage)),
      LoopStep ⟨app, chan, tasks⟩ ⟨drainAll app chan, [], tasks⟩
  | key : ∀ (app : App) (chan : List AppMessage) (tasks : List (List AppMessage))
      (k : Key), ¬ SpawnsTask app k →
      LoopStep ⟨app, chan, tasks⟩ ⟨handleKey app k, chan, tasks⟩
  | keySpawn : ∀ (app : App) (chan : List AppMessage) (tasks : List (List AppMessage))
      (k : Key) (ir : Except String (List Nat)) (f : Nat → Option Item),
      SpawnsTask app k →
      LoopStep ⟨app, chan, tasks⟩
        ⟨handleKey app k, chan, tasks ++ [taskMessages ir f]⟩

/-- The configuration at `run_app` entry: fresh `App`, empty channel, and
the single fetch task spawned before the loop starts (main.rs:470-486). -/
def initConfig (ir : Except String (List Nat)) (f : Nat → Option Item) : LoopConfig :=
  ⟨App.new, [], [taskMessages ir f]⟩

/-- The loop configurations reachable from `run_app` entry. -/
inductive LoopReachable : LoopConfig → Prop where
  | init : ∀ ir f, LoopReachable (initConfig ir f)
  | step : ∀ c c', LoopReachable c → LoopStep c c' → LoopReachable c'

/-- A terminal channel message: `StoriesLoaded` or `Error`. -/
def TerminalMsg (m : AppMessage) : Prop :=
  (∃ L, m = AppMessage.StoriesLoaded L) ∨ (∃ e, m = AppMessage.Error e)

/-- Shape of a fetch task's pending sends: some `Progress` messages
followed by exactly one terminal message. -/
def TaskShape (t : List AppMessage) : Prop :=
  ∃ (rs : List Nat) (last : AppMessage),
    t = rs.map AppMessage.Progress ++ [last] ∧ TerminalMsg last

/-- Invariant of Loading-mode configurations: either the live task has
already sent its terminal message — then the channel ends with that
terminal message and no task is live — or exactly one task is live, its
pending sends are of task shape, and the channel holds only `Progress`
messages. -/
def LoadInv (c : LoopConfig) : Prop :=
  (∃ (qs : List Nat) (last : AppMessage),
      c.chan = qs.map AppMessage.Progress ++ [last]
      ∧ TerminalMsg last ∧ c.tasks = [])
  ∨ (∃ (qs : List Nat) (t : List AppMessage),
      c.chan = qs.map AppMessage.Progress ∧ TaskShape t ∧ c.tasks = [t])

/-- Global loop invariant: Loading-mode configurations satisfy `LoadInv`;
in Stories and Error mode the channel is empty and no task is live. -/
def LoopInv (c : LoopConfig) : Prop :=
  (c.app.state = AppState.Loading → LoadInv c)
  ∧ (c.app.state ≠ AppState.Loading → c.chan = [] ∧ c.tasks = [])

/-- A reachable Stories-mode configuration: the startup fetch of an empty
feed sends its four messages, then the loop drains them. -/
def staleFreeConfig : LoopConfig :=
  ⟨drainAll App.new
      [AppMessage.Progress 10, AppMessage.Progress 20, AppMessage.Progress 100,
        AppMessage.StoriesLoaded []],
    [], []⟩

/-! ### Helper lemmas -/

lemma next_stories (app : App) : app.next.stories = app.stories := by
  unfold App.next; split <;> rfl

lemma next_state (app : App) : app.next.state = app.state := by
  unfold App.next; split <;> rfl

lemma previous_stories (app : App) : app.previous.stories = app.stories := by
  unfold App.previous; split <;> rfl

lemma previous_state (app : App) : app.previous.state = app.state := by
  unfold App.previous; split <;> rfl

lemma next_selected_lt (app : App) (h : app.selected < max 1 app.stories.length) :
    app.next.selected < max 1 app.stories.length := by
  unfold App.next
  split
  · rename_i hc
    obtain ⟨hne, hlt⟩ := hc
    have hlen : 0 < app.stories.length := List.length_pos.mpr hne
    show app.selected + 1 < max 1 app.stories.length
    omega
  · exact h

lemma previous_selected_lt (app : App) (h : app.selected < max 1 app.stories.length) :
    app.previous.selected < max 1 app.stories.length := by
  unfold App.previous
  split
  · show app.selected - 1 < max 1 app.stories.length
    omega
  · exact h

lemma handleEnter_fst (app : App) : (handleEnter app).1 = app := by
  unfold handleEnter
  repeat' split
  all_goals rfl

lemma applyNav_stories (app : App) (op : NavOp) : (applyNav app op).stories = app.stories := by
  cases op
  · exact next_stories app
  · exact previous_stories app

lemma applyNav_selected_lt (app : App) (op : NavOp)
    (h : app.selected < max 1 app.stories.length) :
    (applyNav app op).selected < max 1 app.stories.length := by
  cases op
  · exact next_selected_lt app h
  · exact previous_selected_lt app h

/-- Selection invariant restricted to Stories mode. -/
def SelInv (a : App) : Prop :=
  a.state = AppState.Stories → a.selected < max 1 a.stories.length

lemma selInv_applyMessage (a : App) (m : AppMessage) (ih : SelInv a) :
    SelInv (applyMessage a m) := by
  cases m with
  | Progress p => exact fun hs => ih hs
  | StoriesLoaded s =>
    intro _
    show 0 < max 1 s.length
    omega
  | Error e =>
    intro hs
    simp [applyMessage, App.set_error] at hs

lemma selInv_handleKey (a : App) (k : Key) (ih : SelInv a) : SelInv (handleKey a k) := by
  cases hst : a.state with
  | Loading => simpa only [handleKey, hst] using ih
  | Error e =>
    cases k <;> simp only [handleKey, hst] <;> try exact ih
    intro hs
    nomatch hs
  | Stories =>
    cases k with
    | quit => simpa only [handleKey, hst] using ih
    | other => simpa only [handleKey, hst] using ih
    | enter =>
      simp only [handleKey, hst, handleEnter_fst]
      exact ih
    | refresh =>
      simp only [handleKey, hst]
      intro hs
      nomatch hs
    | down =>
      simp only [handleKey, hst]
      intro _
      rw [next_stories]
      exact next_selected_lt a (ih hst)
    | up =>
      simp only [handleKey, hst]
      intro _
      rw [previous_stories]
      exact previous_selected_lt a (ih hst)

lemma fetchLoop_fst (f : Nat → Option Item) (total : Nat) :
    ∀ (ids : List Nat) (start : Nat), (fetchLoop f total ids start).1 = ids.filterMap f := by
  intro ids
  induction ids with
  | nil => intro start; rfl
  | cons id rest ih =>
    intro start
    cases hf : f id <;> simp [fetchLoop, hf, ih, List.filterMap_cons]

lemma fetchLoop_snd (f : Nat → Option Item) (total : Nat) :
    ∀ (ids : List Nat) (start : Nat),
      (fetchLoop f total ids start).2 = (List.range' start ids.length).map (itemProgress total) := by
  intro ids
  induction ids with
  | nil => intro start; rfl
  | cons id rest ih =>
    intro start
    cases hf : f id <;> simp [fetchLoop, hf, ih, List.range'_succ]

lemma itemProgress_ge (total i : Nat) : 20 ≤ itemProgress total i :=
  Nat.le_add_right 20 _

lemma itemProgress_lt (total i : Nat) (h0 : 0 < total) (hi : i < total) :
    itemProgress total i < 100 := by
  unfold itemProgress
  have h1 : 70 * i / total < 70 := (Nat.div_lt_iff_lt_mul h0).mpr (by omega)
  omega

lemma itemProgress_mono (total : Nat) {i j : Nat} (h : i ≤ j) :
    itemProgress total i ≤ itemProgress total j := by
  unfold itemProgress
  have h1 : 70 * i / total ≤ 70 * j / total :=
    Nat.div_le_div_right (Nat.mul_le_mul_left 70 h)
  omega

lemma length_filterMap_sub (f : Nat → Option Item) (ids : List Nat) :
    (ids.filterMap f).length
      = ids.length - (ids.filter (fun id => (f id).isNone)).length := by
  induction ids with
  | nil => rfl
  | cons id rest ih =>
    have hle : (rest.filter (fun id => (f id).isNone)).length ≤ rest.length :=
      List.length_filter_le _ _
    cases hf : f id
    all_goals simp [List.filterMap_cons, List.filter_cons, hf, ih]
    all_goals omega

lemma drainAll_append (app : App) (l1 l2 : List AppMessage) :
    drainAll app (l1 ++ l2) = drainAll (drainAll app l1) l2 :=
  List.foldl_append _ _ _ _

lemma drainAll_progress_state (qs : List Nat) :
    ∀ app : App, (drainAll app (qs.map AppMessage.Progress)).state = app.state := by
  induction qs with
  | nil => intro app; rfl
  | cons q qs ih =>
    intro app
    have h1 : drainAll app ((q :: qs).map AppMessage.Progress)
        = drainAll (app.update_loading_progress q) (qs.map AppMessage.Progress) := rfl
    rw [h1, ih (app.update_loading_progress q)]
    rfl

lemma applyMessage_terminal_state (app : App) (m : AppMessage) (h : TerminalMsg m) :
    (applyMessage app m).state ≠ AppState.Loading := by
  rcases h with ⟨L, rfl⟩ | ⟨e, rfl⟩ <;> intro hc <;> nomatch hc

lemma handleKey_loading (app : App) (k : Key) (h : app.state = AppState.Loading) :
    handleKey app k = app := by
  simp only [handleKey, h]

lemma handleKey_state_of_ne (app : App) (k : Key) (hk : k ≠ Key.refresh) :
    (handleKey app k).state = app.state := by
  cases hst : app.state with
  | Loading =>
    rw [handleKey_loading app k hst]
    exact hst
  | Error e =>
    cases k
    all_goals try exact absurd rfl hk
    all_goals simp [handleKey, hst]
  | Stories =>
    cases k
    all_goals try exact absurd rfl hk
    all_goals simp [handleKey, hst, next_state, previous_state, handleEnter_fst]

lemma handleKey_refresh_state (app : App) (h : app.state ≠ AppState.Loading) :
    (handleKey app Key.refresh).state = AppState.Loading := by
  cases hst : app.state with
  | Loading => exact absurd hst h
  | Error e => simp [handleKey, hst]
  | Stories => simp [handleKey, hst]

lemma terminalOf_terminal (r : Except String (List Item)) :
    TerminalMsg (terminalOf r) := by
  cases r with
  | ok s => exact Or.inl ⟨s, rfl⟩
  | error e => exact Or.inr ⟨e, rfl⟩

lemma taskShape_taskMessages (ir : Except String (List Nat)) (f : Nat → Option Item) :
    TaskShape (taskMessages ir f) :=
  ⟨(fetch_stories_with_progress ir f).2,
    terminalOf (fetch_stories_with_progress ir f).1, rfl, terminalOf_terminal _⟩

lemma loopInv_step (c c' : LoopConfig) (hstep : LoopStep c c') (hinv : LoopInv c) :
    LoopInv c' := by
  obtain ⟨hload, hother⟩ := hinv
  cases hstep with
  | send app chan pre post m rest hrest =>
    by_cases hst : app.state = AppState.Loading
    case neg =>
      exfalso
      have h2 := (hother hst).2
      simp at h2
    case pos =>
      rcases hload hst with ⟨qs, last, hchan, hterm, htasks⟩ |
        ⟨qs, t, hchan, hshape, htasks⟩
      · exfalso
        simp at htasks
      · have hchan' : chan = qs.map AppMessage.Progress := hchan
        have htasks' : pre ++ (m :: rest) :: post = [t] := htasks
        have hdec : pre = [] ∧ (m :: rest) :: post = [t] := by
          cases pre with
          | nil => exact ⟨rfl, htasks'⟩
          | cons x xs =>
            exfalso
            have hlen := congrArg List.length htasks'
            simp [List.length_append] at hlen
        obtain ⟨hpre0, heq⟩ := hdec
        simp only [List.cons.injEq] at heq
        obtain ⟨hmt, hpost⟩ := heq
        obtain ⟨rs, last2, hts, hterm2⟩ := hshape
        rw [← hmt] at hts
        cases rs with
        | nil =>
          exfalso
          simp at hts
          exact hrest hts.2
        | cons q rs' =>
          simp only [List.map_cons, List.cons_append, List.cons.injEq] at hts
          obtain ⟨hm, hrest2⟩ := hts
          constructor
          · intro _
            right
            refine ⟨qs ++ [q], rest, ?_, ⟨rs', last2, hrest2, hterm2⟩, ?_⟩
            · show chan ++ [m] = (qs ++ [q]).map AppMessage.Progress
              rw [hchan', hm, List.map_append]
              rfl
            · show pre ++ rest :: post = [rest]
              rw [hpre0, hpost]
              rfl
          · intro hns
            exact absurd hst hns
  | sendLast app chan pre post m =>
    by_cases hst : app.state = AppState.Loading
    case neg =>
      exfalso
      have h2 := (hother hst).2
      simp at h2
    case pos =>
      rcases hload hst with ⟨qs, last, hchan, hterm, htasks⟩ |
        ⟨qs, t, hchan, hshape, htasks⟩
      · exfalso
        simp at htasks
      · have hchan' : chan = qs.map AppMessage.Progress := hchan
        have htasks' : pre ++ [m] :: post = [t] := htasks
        have hdec : pre = [] ∧ [m] :: post = [t] := by
          cases pre with
          | nil => exact ⟨rfl, htasks'⟩
          | cons x xs =>
            exfalso
            have hlen := congrArg List.length htasks'
            simp [List.length_append] at hlen
        obtain ⟨hpre0, heq⟩ := hdec
        simp only [List.cons.injEq] at heq
        obtain ⟨hmt, hpost⟩ := heq
        obtain ⟨rs, last2, hts, hterm2⟩ := hshape
        rw [← hmt] at hts
        cases rs with
        | nil =>
          simp at hts
          constructor
          · intro _
            left
            refine ⟨qs, last2, ?_, hterm2, ?_⟩
            · show chan ++ [m] = qs.map AppMessage.Progress ++ [last2]
              rw [hchan', hts]
            · show pre ++ post = []
              rw [hpre0, hpost]
              rfl
          · intro hns
            exact absurd hst hns
        | cons q rs' =>
          exfalso
          simp only [List.map_cons, List.cons_append, List.cons.injEq] at hts
          have h2 := hts.2
          simp at h2
  | drain app chan tasks =>
    by_cases hst : app.state = AppState.Loading
    case neg =>
      obtain ⟨hc0, ht0⟩ := hother hst
      have hc0' : chan = [] := hc0
      subst hc0'
      constructor
      · intro hl'
        exact absurd hl' hst
      · intro _
        exact ⟨rfl, ht0⟩
    case pos =>
      rcases hload hst with ⟨qs, last, hchan, hterm, htasks⟩ |
        ⟨qs, t, hchan, hshape, htasks⟩
      · have hchan' : chan = qs.map AppMessage.Progress ++ [last] := hchan
        subst hchan'
        have hstate : (drainAll app (qs.map AppMessage.Progress ++ [last])).state
            ≠ AppState.Loading := by
          rw [drainAll_append]
          exact applyMessage_terminal_state _ last hterm
        constructor
        · intro hl'
          exact absurd hl' hstate
        · intro _
          exact ⟨rfl, htasks⟩
      · have hchan' : chan = qs.map AppMessage.Progress := hchan
        subst hchan'
        have hstate : (drainAll app (qs.map AppMessage.Progress)).state
            = AppState.Loading := by
          rw [drainAll_progress_state]
          exact hst
        constructor
        · intro _
          right
          exact ⟨[], t, rfl, hshape, htasks⟩
        · intro hns
          exact absurd hstate hns
  | key app chan tasks k hns =>
    by_cases hst : app.state = AppState.Loading
    case pos =>
      rw [handleKey_loading app k hst]
      exact ⟨hload, hother⟩
    case neg =>
      have hk : k ≠ Key.refresh := fun hkr => hns ⟨hkr, hst⟩
      have hstate : (handleKey app k).state = app.state :=
        handleKey_state_of_ne app k hk
      obtain ⟨hc0, ht0⟩ := hother hst
      constructor
      · intro hl'
        rw [hstate] at hl'
        exact absurd hl' hst
      · intro _
        exact ⟨hc0, ht0⟩
  | keySpawn app chan tasks k ir f hsp =>
    obtain ⟨hkr, hstne⟩ := hsp
    obtain ⟨hc0, ht0⟩ := hother hstne
    have hc0' : chan = [] := hc0
    have ht0' : tasks = [] := ht0
    subst hkr
    have hstate : (handleKey app Key.refresh).state = AppState.Loading :=
      handleKey_refresh_state app hstne
    constructor
    · intro _
      right
      refine ⟨[], taskMessages ir f, ?_, taskShape_taskMessages ir f, ?_⟩
      · show chan = List.map AppMessage.Progress []
        rw [hc0']
        rfl
      · show tasks ++ [taskMessages ir f] = [taskMessages ir f]
        rw [ht0']
        rfl
    · intro hns'
      exact absurd hstate hns'

lemma loopReachable_inv (c : LoopConfig) (h : LoopReachable c) : LoopInv c := by
  induction h with
  | init ir f =>
    constructor
    · intro _
      right
      exact ⟨[], taskMessages ir f, rfl, taskShape_taskMessages ir f, rfl⟩
    · intro hns
      exact absurd rfl hns
  | step c c' _ hstep ih => exact loopInv_step c c' hstep ih

lemma reachable_selInv (app : App) (h : Reachable app) : SelInv app := by
  induction h with
  | init => intro hst; nomatch hst
  | msg a m _ ih => exact selInv_applyMessage a m ih
  | key a k _ ih => exact selInv_handleKey a k ih

/-! ### Claims -/

/-- C2: in every reachable configuration of the `run_app` loop whose screen
mode is Stories — the only mode in which a refresh command is accepted —
the channel is empty and no fetch task has pending sends. The claim's
antecedent ("a previous fetch's stories-loaded message is still unread in
the channel" when refresh is issued) therefore never occurs: the loop
drains the channel completely before every key read, Stories mode is only
entered by draining a task's final `StoriesLoaded`, after which that task
sends nothing more and no other task is live. Hence draining after a
refresh can only apply the newly spawned fetch's messages, and the
freshly-reset Loading state is never overwritten with an old fetch's story
list. -/
theorem C2_no_stale_on_refresh (c : LoopConfig) (h : LoopReachable c)
    (hs : c.app.state = AppState.Stories) :
    c.chan = [] ∧ c.tasks = [] := by
  have hinv := loopReachable_inv c h
  apply hinv.2
  rw [hs]
  simp

/-- C2 witness: the startup fetch of an empty feed sends its four messages,
the loop drains them into Stories mode, and there the channel is empty and
no task is live. -/
theorem C2_witness :
    LoopReachable staleFreeConfig ∧ staleFreeConfig.app.state = AppState.Stories ∧
    staleFreeConfig.chan = [] ∧ staleFreeConfig.tasks = [] := by
  have h0 : LoopReachable (initConfig (Except.ok []) (fun _ => none)) :=
    LoopReachable.init _ _
  have h1 : LoopReachable ⟨App.new, [AppMessage.Progress 10],
      [[AppMessage.Progress 20, AppMessage.Progress 100,
        AppMessage.StoriesLoaded []]]⟩ :=
    LoopReachable.step _ _ h0
      (LoopStep.send App.new [] [] [] (AppMessage.Progress 10)
        [AppMessage.Progress 20, AppMessage.Progress 100, AppMessage.StoriesLoaded []]
        (List.cons_ne_nil _ _))
  have h2 : LoopReachable ⟨App.new, [AppMessage.Progress 10, AppMessage.Progress 20],
      [[AppMessage.Progress 100, AppMessage.StoriesLoaded []]]⟩ :=
    LoopReachable.step _ _ h1
      (LoopStep.send App.new [AppMessage.Progress 10] [] [] (AppMessage.Progress 20)
        [AppMessage.Progress 100, AppMessage.StoriesLoaded []]
        (List.cons_ne_nil _ _))
  have h3 : LoopReachable ⟨App.new,
      [AppMessage.Progress 10, AppMessage.Progress 20, AppMessage.Progress 100],
      [[AppMessage.StoriesLoaded []]]⟩ :=
    LoopReachable.step _ _ h2
      (LoopStep.send App.new [AppMessage.Progress 10, AppMessage.Progress 20] [] []
        (AppMessage.Progress 100) [AppMessage.StoriesLoaded []]
        (List.cons_ne_nil _ _))
  have h4 : LoopReachable ⟨App.new,
      [AppMessage.Progress 10, AppMessage.Progress 20, AppMessage.Progress 100,
        AppMessage.StoriesLoaded []], []⟩ :=
    LoopReachable.step _ _ h3
      (LoopStep.sendLast App.new
        [AppMessage.Progress 10, AppMessage.Progress 20, AppMessage.Progress 100]
        [] [] (AppMessage.StoriesLoaded []))
  have hr : LoopReachable staleFreeConfig :=
    LoopReachable.step _ _ h4
      (LoopStep.drain App.new
        [AppMessage.Progress 10, AppMessage.Progress 20, AppMessage.Progress 100,
          AppMessage.StoriesLoaded []] [])
  have hs : staleFreeConfig.app.state = AppState.Stories := by decide
  have hmain := C2_no_stale_on_refresh staleFreeConfig hr hs
  exact ⟨hr, hs, hmain.1, hmain.2⟩

/-- C3 (counterexample): `update_loading_progress` is NOT ignored when the
mode is Stories — on a Stories-mode app with stored progress 0, updating
with 50 changes the stored progress. -/
theorem C3_counterexample :
    storiesApp.state = AppState.Stories ∧
    (storiesApp.update_loading_progress 50).loading_progress
      ≠ storiesApp.loading_progress := by
  decide

/-- C3 (amended): for every percent value `p` and every application state,
`update_loading_progress p` clamps `p` to [0,100] and stores the clamped
value unconditionally — in Loading, Stories and Error mode alike — leaving
the stories, the selection and the mode unchanged. -/
theorem C3_update_progress_clamps (app : App) (p : Nat) :
    (app.update_loading_progress p).loading_progress = min p 100 ∧
    (app.update_loading_progress p).loading_progress ≤ 100 ∧
    (app.update_loading_progress p).state = app.state ∧
    (app.update_loading_progress p).stories = app.stories ∧
    (app.update_loading_progress p).selected = app.selected :=
  ⟨rfl, Nat.min_le_right p 100, rfl, rfl, rfl⟩

/-- C6: for every story list `L` and every prior application state, calling
`set_stories L` and then immediately `selected_story` returns `some` of the
first element of `L` whenever `L` is non-empty, and `none` when `L` is
empty. -/
theorem C6_replace_then_selection (app : App) (L : List Item) :
    (∀ x xs, L = x :: xs → (app.set_stories L).selected_story = some x) ∧
    (L = [] → (app.set_stories L).selected_story = none) := by
  constructor
  · intro x xs hL
    subst hL
    simp [App.set_stories, App.selected_story]
  · intro hL
    subst hL
    simp [App.set_stories, App.selected_story]

/-- C6 witness: instantiated at a one-element list. -/
theorem C6_witness :
    (∀ x xs, ([sampleItem] : List Item) = x :: xs →
      (App.new.set_stories [sampleItem]).selected_story = some x) ∧
    (([sampleItem] : List Item) = [] →
      (App.new.set_stories [sampleItem]).selected_story = none) :=
  C6_replace_then_selection App.new [sampleItem]

/-- C8: on the open-selected (Enter) command in Stories mode, the external
opener is invoked if and only if a currently selected story exists and its
url field is present and non-empty; the app state (stories, selection,
mode) is returned unchanged, independently of the opener's result, whose
failure is swallowed. -/
theorem C8_open_selected (app : App) :
    (handleEnter app).1 = app ∧
    ((handleEnter app).2.isSome ↔
      ∃ story url, app.selected_story = some story ∧ story.url = some url ∧
        url.isEmpty = false) := by
  refine ⟨handleEnter_fst app, ?_⟩
  unfold handleEnter
  cases hsel : app.selected_story with
  | none => simp
  | some story =>
    cases hurl : story.url with
    | none => simp [hurl]
    | some url =>
      by_cases he : url.isEmpty <;> simp [hurl, he]

/-- C8 witness: instantiated at a Stories-mode app whose selected story has
a non-empty url. -/
theorem C8_witness :
    (handleEnter storiesApp).1 = storiesApp ∧
    ((handleEnter storiesApp).2.isSome ↔
      ∃ story url, storiesApp.selected_story = some story ∧ story.url = some url ∧
        url.isEmpty = false) :=
  C8_open_selected storiesApp

/-- C9: with the raw-mode probe succeeding and the terminal setup and
cleanup steps succeeding, `main` exits with code 0 both on a clean quit and
when `run_app` returns an internal error; in the latter case the error is
printed to stderr rather than propagated as a non-zero exit status. -/
theorem C9_exit_zero (res : Except String Unit) :
    exitCode (mainResult true (Except.ok ()) (Except.ok ()) res).1 = 0 ∧
    (∀ e, res = Except.error e →
      (mainResult true (Except.ok ()) (Except.ok ()) res).2
        = some ("Application error: " ++ e)) := by
  cases res with
  | ok u => exact ⟨rfl, by intro e h; cases h⟩
  | error e =>
    refine ⟨rfl, ?_⟩
    intro e' h
    cases h
    rfl

/-- C9 witness: instantiated at an internal `run_app` error. -/
theorem C9_witness :
    exitCode (mainResult true (Except.ok ()) (Except.ok ())
      (Except.error "boom")).1 = 0 ∧
    (∀ e, (Except.error "boom" : Except String Unit) = Except.error e →
      (mainResult true (Except.ok ()) (Except.ok ()) (Except.error "boom")).2
        = some ("Application error: " ++ e)) :=
  C9_exit_zero (Except.error "boom")

/-- C10: if the index endpoint returns an empty identifier list, the fetch
returns `Ok` with an empty story list, the per-item loop body is never
executed (so the progress-scaling division by the item count never runs),
and the progress callback is invoked exactly three times, with 10, 20 and
100 in that order. -/
theorem C10_empty_index (fetchItem : Nat → Option Item) :
    fetch_stories_with_progress (Except.ok []) fetchItem
      = (Except.ok [], [10, 20, 100]) :=
  rfl

/-- C7: from any state satisfying the selection invariant, any finite
sequence of `next`/`previous` calls leaves the story list unchanged, keeps
the selection below `max 1 len` (so within `[0, len-1]` for a non-empty
list — `Nat` can never go negative), and keeps it at 0 when the list is
empty. -/
theorem C7_navigation_bounds (app : App) (ops : List NavOp)
    (h : app.selected < max 1 app.stories.length) :
    (applyNavs app ops).stories = app.stories ∧
    (applyNavs app ops).selected < max 1 app.stories.length ∧
    (app.stories = [] → (applyNavs app ops).selected = 0) := by
  induction ops generalizing app with
  | nil =>
    refine ⟨rfl, h, fun he => ?_⟩
    show app.selected = 0
    rw [he] at h
    simp at h
    omega
  | cons op rest ih =>
    have h1 : (applyNav app op).selected < max 1 (applyNav app op).stories.length := by
      rw [applyNav_stories]
      exact applyNav_selected_lt app op h
    obtain ⟨hs, hsel, hemp⟩ := ih (applyNav app op) h1
    have hfold : applyNavs app (op :: rest) = applyNavs (applyNav app op) rest := rfl
    rw [applyNav_stories] at hs hsel
    refine ⟨?_, ?_, ?_⟩
    · rw [hfold, hs]
    · rw [hfold]
      exact hsel
    · intro he
      rw [hfold]
      exact hemp (by rw [applyNav_stories, he])

/-- C7 witness: two stories, then next, next, previous. -/
theorem C7_witness :
    storiesApp2.selected < max 1 storiesApp2.stories.length ∧
    ((applyNavs storiesApp2 [NavOp.next, NavOp.next, NavOp.previous]).stories
        = storiesApp2.stories ∧
      (applyNavs storiesApp2 [NavOp.next, NavOp.next, NavOp.previous]).selected
        < max 1 storiesApp2.stories.length ∧
      (storiesApp2.stories = [] →
        (applyNavs storiesApp2 [NavOp.next, NavOp.next, NavOp.previous]).selected = 0)) :=
  ⟨by decide,
    C7_navigation_bounds storiesApp2 [NavOp.next, NavOp.next, NavOp.previous] (by decide)⟩

/-- C1 (counterexample): the state reached by loading two stories, selecting
the second one and pressing refresh is reachable by the orchestrator loop,
yet violates `selection < max(1, len(stories))`: the refresh branch clears
the story list without resetting the selection, leaving selection 1 with an
empty list. -/
def refreshCounterexample : App :=
  handleKey (handleKey (applyMessage App.new
    (AppMessage.StoriesLoaded [sampleItem, sampleItem2])) Key.down) Key.refresh

/-- C1 (counterexample): a reachable state with `selection = 1` and an
empty story list, so `selection < max(1, len(stories))` fails there. -/
theorem C1_selection_counterexample :
    Reachable refreshCounterexample ∧
    ¬ (refreshCounterexample.selected < max 1 refreshCounterexample.stories.length) := by
  constructor
  · exact Reachable.key _ Key.refresh
      (Reachable.key _ Key.down
        (Reachable.msg _ (AppMessage.StoriesLoaded [sampleItem, sampleItem2])
          Reachable.init))
  · decide

/-- C1 (amended): in every state reachable by the orchestrator loop whose
screen mode is Stories, the selection index satisfies
`0 <= selection < max(1, len(stories))` (the lower bound holds in every
state since the index is a `Nat`); after a Stories-mode refresh the
selection may exceed the bound of the cleared list until the next
stories-loaded message resets it to 0. -/
theorem C1_selection_invariant (app : App) (h : Reachable app)
    (hs : app.state = AppState.Stories) :
    app.selected < max 1 app.stories.length :=
  reachable_selInv app h hs

/-- C1 witness: the invariant holds at the reachable Stories-mode state
with one loaded story. -/
theorem C1_witness :
    Reachable storiesApp ∧ storiesApp.state = AppState.Stories ∧
    storiesApp.selected < max 1 storiesApp.stories.length := by
  have hr : Reachable storiesApp :=
    Reachable.msg App.new (AppMessage.StoriesLoaded [sampleItem]) Reachable.init
  exact ⟨hr, rfl, C1_selection_invariant storiesApp hr rfl⟩

/-- C4: for every index response (truncated to at most 30 ids) and per-item
oracle, the fetch returns exactly the successfully fetched items in their
original rank order (`filterMap`), the result length is `N - K` where `N`
is the truncated id count and `K` the number of failing items, and with
zero failures the length is exactly `N`. -/
theorem C4_fetch_partial_failure (l : List Nat) (f : Nat → Option Item) :
    (fetch_stories_with_progress (Except.ok l) f).1
        = Except.ok ((l.take 30).filterMap f) ∧
    ((l.take 30).filterMap f).length
        = (l.take 30).length - ((l.take 30).filter (fun id => (f id).isNone)).length ∧
    ((∀ id ∈ l.take 30, (f id).isSome) →
      ((l.take 30).filterMap f).length = (l.take 30).length) := by
  refine ⟨?_, length_filterMap_sub f _, ?_⟩
  · show Except.ok ((fetchLoop f (l.take 30).length (l.take 30) 0).1)
        = Except.ok ((l.take 30).filterMap f)
    rw [fetchLoop_fst]
  · intro h
    have hnil : (l.take 30).filter (fun id => (f id).isNone) = [] := by
      rw [List.filter_eq_nil_iff]
      intro a ha
      have hsome := h a ha
      cases hfa : f a with
      | none =>
        rw [hfa] at hsome
        simp at hsome
      | some it => simp [hfa]
    rw [length_filterMap_sub f, hnil]
    simp

/-- C4 witness: ids `[1, 2, 3]` where only the fetch of id 2 fails. -/
theorem C4_witness :
    (fetch_stories_with_progress (Except.ok [1, 2, 3]) sampleFetch).1
        = Except.ok ((([1, 2, 3] : List Nat).take 30).filterMap sampleFetch) ∧
    ((([1, 2, 3] : List Nat).take 30).filterMap sampleFetch).length
        = (([1, 2, 3] : List Nat).take 30).length
          - ((([1, 2, 3] : List Nat).take 30).filter
              (fun id => (sampleFetch id).isNone)).length ∧
    ((∀ id ∈ ([1, 2, 3] : List Nat).take 30, (sampleFetch id).isSome) →
      ((([1, 2, 3] : List Nat).take 30).filterMap sampleFetch).length
        = (([1, 2, 3] : List Nat).take 30).length) :=
  C4_fetch_partial_failure [1, 2, 3] sampleFetch

/-- C5: for every successful fetch, the trace of values passed to the
progress callback is monotonically non-decreasing, every value emitted
inside the per-item loop is strictly below 100, and the final reported
value is exactly 100. -/
theorem C5_progress_monotone (l : List Nat) (f : Nat → Option Item) :
    ((fetch_stories_with_progress (Except.ok l) f).2).Pairwise (· ≤ ·) ∧
    (∀ p ∈ (fetchLoop f (l.take 30).length (l.take 30) 0).2, p < 100) ∧
    ((fetch_stories_with_progress (Except.ok l) f).2).getLast? = some 100 := by
  have htr : (fetch_stories_with_progress (Except.ok l) f).2
      = 10 :: 20 :: ((fetchLoop f (l.take 30).length (l.take 30) 0).2 ++ [100]) := rfl
  have hsnd := fetchLoop_snd f (l.take 30).length (l.take 30) 0
  have hmem : ∀ p ∈ (fetchLoop f (l.take 30).length (l.take 30) 0).2,
      20 ≤ p ∧ p < 100 := by
    intro p hp
    rw [hsnd] at hp
    obtain ⟨i, hi, rfl⟩ := List.mem_map.mp hp
    have hi' : 0 ≤ i ∧ i < 0 + (l.take 30).length := List.mem_range'_1.mp hi
    refine ⟨itemProgress_ge _ _, itemProgress_lt _ _ ?_ ?_⟩
    · omega
    · omega
  have hpw : ((fetchLoop f (l.take 30).length (l.take 30) 0).2).Pairwise (· ≤ ·) := by
    rw [hsnd]
    exact (List.pairwise_lt_range' 0 (l.take 30).length).map
      (itemProgress (l.take 30).length)
      (fun a b hab => itemProgress_mono _ (Nat.le_of_lt hab))
  refine ⟨?_, fun p hp => (hmem p hp).2, ?_⟩
  · rw [htr, List.pairwise_cons]
    refine ⟨?_, ?_⟩
    · intro b hb
      rcases List.mem_cons.mp hb with h20 | hb'
      · omega
      · rcases List.mem_append.mp hb' with hbl | hbs
        · have := (hmem b hbl).1
          omega
        · have hb100 : b = 100 := List.mem_singleton.mp hbs
          omega
    · rw [List.pairwise_cons]
      refine ⟨?_, ?_⟩
      · intro b hb
        rcases List.mem_append.mp hb with hbl | hbs
        · exact (hmem b hbl).1
        · have hb100 : b = 100 := List.mem_singleton.mp hbs
          omega
      · rw [List.pairwise_append]
        refine ⟨hpw, List.pairwise_singleton _ _, ?_⟩
        intro a ha b hbs
        have hb100 : b = 100 := List.mem_singleton.mp hbs
        have := (hmem a ha).2
        omega
  · rw [htr]
    show ((10 :: 20 :: (fetchLoop f (l.take 30).length (l.take 30) 0).2)
        ++ [100]).getLast? = some 100
    exact List.getLast?_concat _

/-- C5 witness: a two-id feed with all item fetches succeeding. -/
theorem C5_witness :
    ((fetch_stories_with_progress (Except.ok [5, 6])
        (fun _ => some sampleItem)).2).Pairwise (· ≤ ·) ∧
    (∀ p ∈ (fetchLoop (fun _ => some sampleItem)
        (([5, 6] : List Nat).take 30).length (([5, 6] : List Nat).take 30) 0).2,
      p < 100) ∧
    ((fetch_stories_with_progress (Except.ok [5, 6])
        (fun _ => some sampleItem)).2).getLast? = some 100 :=
  C5_progress_monotone [5, 6] (fun _ => some sampleItem)

end HNClient
